import Mathlib

/-!
Verification of the liquid-blob particle simulation in src/liquid.js.

The JavaScript core is shallowly embedded below.  Number arithmetic is
idealised over the real numbers; color values produced by hexToRgb are
natural numbers (parseInt with base 16 yields integers).  JS object lookup
on the palette literal is modelled as finite-map lookup over the literal's
own keys, and Math.random draws are modelled as an injected source of real
numbers in [0, 1).
-/

/-- An RGB triple as produced by hexToRgb (src/liquid.js lines 209-215):
integer channel values from parseInt(_, 16). -/
structure RgbN where
  r : ℕ
  g : ℕ
  b : ℕ
deriving DecidableEq

/-- A palette entry of the PALETTES registry (src/liquid.js lines 11-37). -/
structure Palette where
  name : String
  colors : List String
  bg : String
deriving DecidableEq

/-- PALETTES.joy (src/liquid.js lines 12-16). -/
def joy : Palette :=
  { name := "Joy",
    colors := ["#FFD166", "#FFD166", "#06D6A0", "#118AB2", "#EF476F"],
    bg := "#1a1a00" }

/-- PALETTES.serenity (src/liquid.js lines 17-21). -/
def serenity : Palette :=
  { name := "Serenity",
    colors := ["#E0F7FA", "#B2EBF2", "#80DEEA", "#4DD0E1", "#26C6DA"],
    bg := "#001a1a" }

/-- PALETTES.energy (src/liquid.js lines 22-26). -/
def energy : Palette :=
  { name := "Energy",
    colors := ["#FF5733", "#C70039", "#900C3F", "#FFC300", "#FF5733"],
    bg := "#1a0505" }

/-- PALETTES.melancholy (src/liquid.js lines 27-31). -/
def melancholy : Palette :=
  { name := "Melancholy",
    colors := ["#2B2D42", "#8D99AE", "#EDF2F4", "#EF233C", "#D90429"],
    bg := "#0a0a0f" }

/-- PALETTES.mystery (src/liquid.js lines 32-36). -/
def mystery : Palette :=
  { name := "Mystery",
    colors := ["#32004B", "#5D008F", "#8300D4", "#B400FE", "#E1ADFF"],
    bg := "#0f0016" }

/-- The PALETTES object literal (src/liquid.js lines 11-37), modelled as a
finite map from mood key to palette. -/
def PALETTES : List (String × Palette) :=
  [("joy", joy), ("serenity", serenity), ("energy", energy),
   ("melancholy", melancholy), ("mystery", mystery)]

/-- The property access PALETTES[moodKey] (src/liquid.js line 238),
modelled as lookup over the literal's own keys. -/
def lookupPalette (moodKey : String) : Option Palette :=
  (PALETTES.find? (fun kv => kv.1 == moodKey)).map (fun kv => kv.2)

/-- The character class [a-f\d] with the /i flag, as used by both regexes
of hexToRgb (src/liquid.js lines 203 and 208). -/
def isHexDigitJS (c : Char) : Bool :=
  ('0' ≤ c && c ≤ '9') || ('a' ≤ c && c ≤ 'f') || ('A' ≤ c && c ≤ 'F')

/-- Value of a single hex digit, as parseInt(_, 16) assigns it
(src/liquid.js lines 211-213). -/
def hexVal (c : Char) : ℕ :=
  if '0' ≤ c ∧ c ≤ '9' then c.toNat - '0'.toNat
  else if 'a' ≤ c ∧ c ≤ 'f' then c.toNat - 'a'.toNat + 10
  else if 'A' ≤ c ∧ c ≤ 'F' then c.toNat - 'A'.toNat + 10
  else 0

/-- hex.replace(shorthandRegex, (m, r, g, b) => r + r + g + g + b + b)
(src/liquid.js lines 203-206): the anchored regex matches an optional '#'
followed by exactly three hex digits; on a match the whole string is
replaced by the six duplicated digits, otherwise it is left unchanged. -/
def expandShorthand (cs : List Char) : List Char :=
  match cs with
  | [c0, r, g, b] =>
      if c0 = '#' && isHexDigitJS r && isHexDigitJS g && isHexDigitJS b then
        [r, r, g, g, b, b]
      else [c0, r, g, b]
  | [r, g, b] =>
      if isHexDigitJS r && isHexDigitJS g && isHexDigitJS b then
        [r, r, g, g, b, b]
      else [r, g, b]
  | l => l

/-- /^#?([a-f\d]{2})([a-f\d]{2})([a-f\d]{2})$/i.exec(hex) followed by the
parseInt(_, 16) of each group (src/liquid.js lines 208-215). -/
def matchSix (cs : List Char) : Option RgbN :=
  match cs with
  | [c0, r1, r2, g1, g2, b1, b2] =>
      if c0 = '#' && isHexDigitJS r1 && isHexDigitJS r2 && isHexDigitJS g1 &&
          isHexDigitJS g2 && isHexDigitJS b1 && isHexDigitJS b2 then
        some { r := 16 * hexVal r1 + hexVal r2,
               g := 16 * hexVal g1 + hexVal g2,
               b := 16 * hexVal b1 + hexVal b2 }
      else none
  | [r1, r2, g1, g2, b1, b2] =>
      if isHexDigitJS r1 && isHexDigitJS r2 && isHexDigitJS g1 &&
          isHexDigitJS g2 && isHexDigitJS b1 && isHexDigitJS b2 then
        some { r := 16 * hexVal r1 + hexVal r2,
               g := 16 * hexVal g1 + hexVal g2,
               b := 16 * hexVal b1 + hexVal b2 }
      else none
  | _ => none

/-- hexToRgb (src/liquid.js lines 201-216): shorthand expansion followed by
the six-digit match; null (none) when the second regex fails. -/
def hexToRgb (hex : String) : Option RgbN :=
  matchSix (expandShorthand hex.data)

/-- Helper for the claim-side validity predicate: drop one optional
leading '#'. -/
def stripHash (cs : List Char) : List Char :=
  match cs with
  | [] => []
  | c :: rest => if c = '#' then rest else c :: rest

/-- Modelled from the claim's wording, for comparison with hexToRgb: the
input consists, after an optional leading '#', of exactly 3 or 6 hex
digits. -/
def specValidHexL (cs : List Char) : Bool :=
  ((stripHash cs).length == 3 || (stripHash cs).length == 6) &&
    (stripHash cs).all isHexDigitJS

/-- String-level form of specValidHexL. -/
def specValidHex (s : String) : Bool :=
  specValidHexL s.data

noncomputable section

/-- An RGB triple with real-valued channels, as held by a particle during
interpolation (src/liquid.js lines 96-97 and 113-115). -/
structure Rgb where
  r : ℝ
  g : ℝ
  b : ℝ

/-- The mouse state object (src/liquid.js line 7). -/
structure Mouse where
  x : ℝ
  y : ℝ
  isActive : Bool

/-- The targetMouse object holding the raw pointer position
(src/liquid.js line 56). -/
structure TargetMouse where
  x : ℝ
  y : ℝ

/-- One particle's state (src/liquid.js lines 78-101).  targetRgb holds
the result of hexToRgb and so may be null (none). -/
structure Particle where
  x : ℝ
  y : ℝ
  vx : ℝ
  vy : ℝ
  radius : ℝ
  baseRadius : ℝ
  currentRgb : Rgb
  targetRgb : Option RgbN
  angle : ℝ
  speed : ℝ

/-- lerp (src/liquid.js lines 74-76).  The source's parameter "end" is a
Lean keyword and is renamed to "stop". -/
def lerp (start stop t : ℝ) : ℝ :=
  start * (1 - t) + stop * t

/-- The per-frame color easing constant lerpSpeed (src/liquid.js
line 112). -/
def lerpSpeed : ℝ := 0.05

/-- One channel of the per-frame color easing step
(src/liquid.js lines 113-115). -/
def easeChannel (current target : ℝ) : ℝ :=
  lerp current target lerpSpeed

/-- N successive applications of easeChannel to one channel. -/
def easeChannelIter : ℕ → ℝ → ℝ → ℝ
  | 0, current, _ => current
  | n + 1, current, target => easeChannelIter n (easeChannel current target) target

/-- Math.sqrt(dx * dx + dy * dy) (src/liquid.js line 138). -/
def jsDistance (dx dy : ℝ) : ℝ :=
  Real.sqrt (dx * dx + dy * dy)

/-- Math.atan2(y, x), the angle of the point (x, y), modelled as the
complex argument (src/liquid.js line 143). -/
def atan2 (y x : ℝ) : ℝ :=
  Complex.arg { re := x, im := y }

/-- The mouse-repulsion step of Particle.update (src/liquid.js
lines 135-149): applied to the velocity after friction and position
integration, reading the already-eased mouse position. -/
def repulse (isActive : Bool) (mouseX mouseY x y vx vy : ℝ) : ℝ × ℝ :=
  if isActive then
    let dx := mouseX - x
    let dy := mouseY - y
    let distance := jsDistance dx dy
    let forceRadius : ℝ := 300
    if distance < forceRadius then
      let force := (forceRadius - distance) / forceRadius
      let angle := atan2 dy dx
      (vx - Real.cos angle * force * 1, vy - Real.sin angle * force * 1)
    else
      (vx, vy)
  else
    (vx, vy)

/-- The screen-boundary wrap applied to one coordinate (src/liquid.js
lines 155-159): two sequenced conditional teleports, the second reading
the possibly already-wrapped value. -/
def wrapCoord (bound buffer z : ℝ) : ℝ :=
  let z1 := if z < -buffer then bound + buffer else z
  if z1 > bound + buffer then -buffer else z1

/-- Particle.update (src/liquid.js lines 109-160).  Mutation is modelled
by returning the new particle together with the new mouse state: the
smoothed-mouse easing of lines 132-133 happens inside every update call.
Dereferencing a null targetRgb would throw in JS; this is modelled by
returning none. -/
def Particle.update (p : Particle) (mouse : Mouse) (targetMouse : TargetMouse)
    (width height : ℝ) : Option (Particle × Mouse) :=
  match p.targetRgb with
  | none => none
  | some tgt =>
    let currentRgb : Rgb :=
      { r := easeChannel p.currentRgb.r (tgt.r : ℝ),
        g := easeChannel p.currentRgb.g (tgt.g : ℝ),
        b := easeChannel p.currentRgb.b (tgt.b : ℝ) }
    let angle := p.angle + p.speed
    let vx0 := p.vx + Real.cos angle * 0.02
    let vy0 := p.vy + Real.sin angle * 0.02
    let vx1 := vx0 * 0.98
    let vy1 := vy0 * 0.98
    let x0 := p.x + vx1
    let y0 := p.y + vy1
    let mouseX := mouse.x + (targetMouse.x - mouse.x) * 0.1
    let mouseY := mouse.y + (targetMouse.y - mouse.y) * 0.1
    let v := repulse mouse.isActive mouseX mouseY x0 y0 vx1 vy1
    let radius := p.radius + (p.baseRadius - p.radius) * 0.05
    let buffer := radius * 2
    let x1 := wrapCoord width buffer x0
    let y1 := wrapCoord height buffer y0
    some ({ p with x := x1, y := y1, vx := v.1, vy := v.2, radius := radius,
                   currentRgb := currentRgb, angle := angle },
          { mouse with x := mouseX, y := mouseY })

/-- One iteration of the animate loop over the particle pool
(src/liquid.js lines 219-230): particles.forEach(p => { p.update();
p.draw(); }), threading the shared mouse state through the successive
update calls.  Drawing does not touch the modelled state. -/
def runFrame (particles : List Particle) (mouse : Mouse)
    (targetMouse : TargetMouse) (width height : ℝ) :
    Option (List Particle × Mouse) :=
  match particles with
  | [] => some ([], mouse)
  | p :: rest =>
    match p.update mouse targetMouse width height with
    | none => none
    | some pm =>
      match runFrame rest pm.2 targetMouse width height with
      | none => none
      | some res => some (pm.1 :: res.1, res.2)

/-- Particle.prototype.pickColor (src/liquid.js lines 103-107):
colors[Math.floor(Math.random() * colors.length)], with the Math.random
draw r injected (its contract is 0 ≤ r < 1). -/
def pickColor (pal : Palette) (r : ℝ) : String :=
  pal.colors.getD (Int.toNat ⌊r * (pal.colors.length : ℝ)⌋) ""

/-- The particles.forEach recolor loop of setMood (src/liquid.js
lines 250-253): each particle gets targetRgb := hexToRgb(pickColor()),
with one injected random draw per particle. -/
def recolor (pal : Palette) (rnd : ℕ → ℝ) : ℕ → List Particle → List Particle
  | _, [] => []
  | k, p :: ps =>
      { p with targetRgb := hexToRgb (pickColor pal (rnd k)) } ::
        recolor pal rnd (k + 1) ps

/-- The module state touched by setMood: the active palette, the particle
pool, and the body background color (src/liquid.js lines 6, 39, 247). -/
structure SimState where
  currentPalette : Palette
  particles : List Particle
  bodyBg : String

/-- setMood (src/liquid.js lines 237-271).  The guard on line 238 returns
early when PALETTES[moodKey] is absent; otherwise the active palette, the
body background and every particle's targetRgb are updated.  The DOM
button/swatch updates are external collaborators with no modelled
state. -/
def setMood (moodKey : String) (rnd : ℕ → ℝ) (st : SimState) : SimState :=
  match lookupPalette moodKey with
  | none => st
  | some pal =>
    { currentPalette := pal,
      bodyBg := pal.bg,
      particles := recolor pal rnd 0 st.particles }

/-- A concrete particle used for closed-form instances: zero position and
velocity, zero phase, radius 10, black colors. -/
def testParticle : Particle :=
  { x := 0, y := 0, vx := 0, vy := 0, radius := 10, baseRadius := 10,
    currentRgb := { r := 0, g := 0, b := 0 },
    targetRgb := some { r := 0, g := 0, b := 0 },
    angle := 0, speed := 0 }

/-- A concrete mouse state at the origin, inactive. -/
def testMouse : Mouse := { x := 0, y := 0, isActive := false }

/-- A concrete raw pointer target at (10, 10). -/
def testTargetMouse : TargetMouse := { x := 10, y := 10 }

/-- A concrete simulation state: the default joy palette and one
particle. -/
def st0 : SimState :=
  { currentPalette := joy, particles := [testParticle], bodyBg := "#1a1a00" }

end

/-- Claim C9: lerp(a, b, t) computes a*(1-t) + b*t; lerp(a,b,0) = a,
lerp(a,b,1) = b, and lerp is monotonically non-decreasing in t when
a < b. -/
theorem lerp_spec (a b t1 t2 : ℝ) :
    lerp a b 0 = a ∧ lerp a b 1 = b ∧
    (a < b → t1 ≤ t2 → lerp a b t1 ≤ lerp a b t2) := by
  refine ⟨by unfold lerp; ring, by unfold lerp; ring, fun hab ht => ?_⟩
  unfold lerp
  nlinarith [mul_nonneg (sub_nonneg.mpr hab.le) (sub_nonneg.mpr ht)]

/-- Witness for lerp_spec at a = 0, b = 2, t1 = 1/4, t2 = 1/2. -/
theorem lerp_spec_witness : lerp 0 2 (1 / 4) ≤ lerp 0 2 (1 / 2) :=
  (lerp_spec 0 2 (1 / 4) (1 / 2)).2.2 (by norm_num) (by norm_num)

/-- Claim C8: after N applications of the per-frame color easing step
(lerp of current toward target with factor 0.05) the remaining gap is at
most the initial gap times 0.95^N, and the target is a fixed point of one
easing step. -/
theorem easeChannel_converges (N : ℕ) (current target : ℝ) :
    |easeChannelIter N current target - target| ≤
      |current - target| * 0.95 ^ N ∧
    easeChannel target target = target := by
  constructor
  · induction N generalizing current with
    | zero => simp [easeChannelIter]
    | succ n ih =>
      have hstep : easeChannel current target - target =
          0.95 * (current - target) := by
        unfold easeChannel lerp lerpSpeed; ring
      calc |easeChannelIter (n + 1) current target - target|
          = |easeChannelIter n (easeChannel current target) target - target| :=
            rfl
        _ ≤ |easeChannel current target - target| * 0.95 ^ n :=
            ih (easeChannel current target)
        _ = |0.95 * (current - target)| * 0.95 ^ n := by rw [hstep]
        _ = |current - target| * 0.95 ^ (n + 1) := by
            rw [abs_mul, abs_of_nonneg (by norm_num : (0:ℝ) ≤ 0.95)]; ring
  · unfold easeChannel lerp lerpSpeed; ring

/-- Claim C3: the boundary wrap of Particle.update relocates a coordinate
that exceeds the surface bound plus twice the radius to the opposite edge
at minus twice the radius, and symmetrically; update applies wrapCoord
with buffer = radius * 2 to x against width and to y against height. -/
theorem wrapCoord_spec (bound r z : ℝ) (hb : 0 ≤ bound) (hr : 0 ≤ r) :
    (bound + 2 * r < z → wrapCoord bound (r * 2) z = -(2 * r)) ∧
    (z < -(2 * r) → wrapCoord bound (r * 2) z = bound + 2 * r) := by
  unfold wrapCoord
  constructor
  · intro hz
    rw [if_neg (show ¬ z < -(r * 2) by linarith)]
    rw [if_pos (show z > bound + r * 2 by linarith)]
    ring
  · intro hz
    rw [if_pos (show z < -(r * 2) by linarith)]
    rw [if_neg (show ¬ bound + r * 2 > bound + r * 2 by linarith)]
    ring

/-- Witness for wrapCoord_spec: width 100, radius 10; x = 125 wraps to
-20 and x = -25 wraps to 120. -/
theorem wrapCoord_spec_witness :
    wrapCoord 100 (10 * 2) 125 = -(2 * 10) ∧
    wrapCoord 100 (10 * 2) (-25) = 100 + 2 * 10 :=
  ⟨(wrapCoord_spec 100 10 125 (by norm_num) (by norm_num)).1 (by norm_num),
   (wrapCoord_spec 100 10 (-25) (by norm_num) (by norm_num)).2 (by norm_num)⟩

/-- Claim C2: with the pointer inactive the repulsion step leaves the
velocity unchanged regardless of distance; with the pointer active and the
particle at distance d from the smoothed pointer position, 0 < d < 300
(the particle not exactly at the pointer, where no away-direction exists),
the velocity change points directly away from the pointer with magnitude
(300 - d)/300 times the force constant 1; and no change occurs when
d is at or beyond 300. -/
theorem repulse_spec (mouseX mouseY x y vx vy : ℝ) :
    repulse false mouseX mouseY x y vx vy = (vx, vy) ∧
    (jsDistance (mouseX - x) (mouseY - y) < 300 → (mouseX ≠ x ∨ mouseY ≠ y) →
      repulse true mouseX mouseY x y vx vy =
        (vx + (x - mouseX) / jsDistance (mouseX - x) (mouseY - y) *
            ((300 - jsDistance (mouseX - x) (mouseY - y)) / 300),
         vy + (y - mouseY) / jsDistance (mouseX - x) (mouseY - y) *
            ((300 - jsDistance (mouseX - x) (mouseY - y)) / 300))) ∧
    (300 ≤ jsDistance (mouseX - x) (mouseY - y) →
      repulse true mouseX mouseY x y vx vy = (vx, vy)) := by
  refine ⟨rfl, fun hlt hne => ?_, fun hge => ?_⟩
  · have hz : ({ re := mouseX - x, im := mouseY - y } : ℂ) ≠ 0 := by
      intro h0
      rw [Complex.ext_iff] at h0
      rcases hne with h | h
      · exact h (sub_eq_zero.mp h0.1)
      · exact h (sub_eq_zero.mp h0.2)
    have habs : Complex.abs { re := mouseX - x, im := mouseY - y } =
        jsDistance (mouseX - x) (mouseY - y) := by
      rw [Complex.abs_apply, Complex.normSq_mk, jsDistance]
    have hcos : Real.cos (atan2 (mouseY - y) (mouseX - x)) =
        (mouseX - x) / jsDistance (mouseX - x) (mouseY - y) := by
      rw [atan2, Complex.cos_arg hz, habs]
    have hsin : Real.sin (atan2 (mouseY - y) (mouseX - x)) =
        (mouseY - y) / jsDistance (mouseX - x) (mouseY - y) := by
      rw [atan2, Complex.sin_arg, habs]
    simp only [repulse, if_pos hlt, hcos, hsin, eq_self_iff_true, if_true]
    rw [Prod.mk.injEq]
    constructor <;> ring
  · simp only [repulse, if_neg (not_lt.mpr hge), eq_self_iff_true, if_true]

/-- Witness for repulse_spec: pointer at (3, 4), particle at the origin
with zero velocity; distance 5, velocity change (-3/5, -4/5) scaled by
(300 - 5)/300. -/
theorem repulse_spec_witness :
    repulse true 3 4 0 0 0 0 =
      (0 + (0 - 3) / 5 * ((300 - 5) / 300), 0 + (0 - 4) / 5 * ((300 - 5) / 300)) := by
  have hd : jsDistance ((3 : ℝ) - 0) ((4 : ℝ) - 0) = 5 := by
    rw [jsDistance,
      show ((3 : ℝ) - 0) * ((3 : ℝ) - 0) + ((4 : ℝ) - 0) * ((4 : ℝ) - 0) = 5 ^ 2 by
        norm_num]
    exact Real.sqrt_sq (by norm_num)
  have h := (repulse_spec 3 4 0 0 0 0).2.1 (by rw [hd]; norm_num)
    (Or.inl (by norm_num))
  rw [hd] at h
  exact h

/-- Claim C6: hexToRgb expands a 3-digit shorthand (optional leading '#')
by duplicating each digit before parsing byte pairs: a shorthand parses to
the same value as its digit-duplicated 6-digit form, and "#FFF" and
"#FFFFFF" both parse to (255, 255, 255). -/
theorem hexToRgb_shorthand (a b c : Char)
    (ha : isHexDigitJS a = true) (hb : isHexDigitJS b = true)
    (hc : isHexDigitJS c = true) :
    hexToRgb (String.mk ['#', a, b, c]) =
      hexToRgb (String.mk ['#', a, a, b, b, c, c]) ∧
    hexToRgb (String.mk [a, b, c]) =
      hexToRgb (String.mk ['#', a, a, b, b, c, c]) ∧
    hexToRgb "#FFF" = some { r := 255, g := 255, b := 255 } ∧
    hexToRgb "#FFFFFF" = some { r := 255, g := 255, b := 255 } := by
  refine ⟨?_, ?_, by decide, by decide⟩
  · simp [hexToRgb, expandShorthand, matchSix, ha, hb, hc]
  · simp [hexToRgb, expandShorthand, matchSix, ha, hb, hc]

/-- Witness for hexToRgb_shorthand at the shorthand "#03F". -/
theorem hexToRgb_shorthand_witness :
    hexToRgb (String.mk ['#', '0', '3', 'F']) =
      hexToRgb (String.mk ['#', '0', '0', '3', '3', 'F', 'F']) :=
  (hexToRgb_shorthand '0' '3' 'F' (by decide) (by decide) (by decide)).1

/-- Helper for claim C7: on any character list that does not consist of an
optional '#' followed by exactly 3 or 6 hex digits, the expansion-then-match
pipeline of hexToRgb yields none. -/
theorem matchSix_none_of_invalid : ∀ cs : List Char, specValidHexL cs = false →
    matchSix (expandShorthand cs) = none := by
  intro cs h
  rcases cs with _ | ⟨a, _ | ⟨b, _ | ⟨c, _ | ⟨d, _ | ⟨e, _ | ⟨f, _ | ⟨g, _ | ⟨c8, rest⟩⟩⟩⟩⟩⟩⟩⟩
  · rfl
  · rfl
  · rfl
  · -- [a, b, c]
    have hcond : (isHexDigitJS a && isHexDigitJS b && isHexDigitJS c) = false := by
      by_contra hcon
      rw [Bool.not_eq_false, Bool.and_eq_true, Bool.and_eq_true] at hcon
      obtain ⟨⟨hha, hhb⟩, hhc⟩ := hcon
      have hne : a ≠ '#' := by
        intro he; rw [he] at hha; exact absurd hha (by decide)
      have : specValidHexL [a, b, c] = true := by
        simp [specValidHexL, stripHash, if_neg hne, hha, hhb, hhc]
      rw [this] at h
      exact absurd h (by decide)
    simp [expandShorthand, hcond, matchSix]
  · -- [a, b, c, d]
    have hcond : (a = '#' && isHexDigitJS b && isHexDigitJS c && isHexDigitJS d)
        = false := by
      by_contra hcon
      rw [Bool.not_eq_false, Bool.and_eq_true, Bool.and_eq_true,
        Bool.and_eq_true] at hcon
      obtain ⟨⟨⟨hha, hhb⟩, hhc⟩, hhd⟩ := hcon
      rw [decide_eq_true_eq] at hha
      subst hha
      have : specValidHexL ['#', b, c, d] = true := by
        simp [specValidHexL, stripHash, hhb, hhc, hhd]
      rw [this] at h
      exact absurd h (by decide)
    simp [expandShorthand, hcond, matchSix]
  · -- [a, b, c, d, e]
    rfl
  · -- [a, b, c, d, e, f]
    have hcond : (isHexDigitJS a && isHexDigitJS b && isHexDigitJS c &&
        isHexDigitJS d && isHexDigitJS e && isHexDigitJS f) = false := by
      by_contra hcon
      rw [Bool.not_eq_false, Bool.and_eq_true, Bool.and_eq_true, Bool.and_eq_true,
        Bool.and_eq_true, Bool.and_eq_true] at hcon
      obtain ⟨⟨⟨⟨⟨hha, hhb⟩, hhc⟩, hhd⟩, hhe⟩, hhf⟩ := hcon
      have hne : a ≠ '#' := by
        intro he; rw [he] at hha; exact absurd hha (by decide)
      have : specValidHexL [a, b, c, d, e, f] = true := by
        simp [specValidHexL, stripHash, if_neg hne, hha, hhb, hhc, hhd, hhe, hhf]
      rw [this] at h
      exact absurd h (by decide)
    simp [expandShorthand, matchSix, hcond]
  · -- [a, b, c, d, e, f, g]
    have hcond : (a = '#' && isHexDigitJS b && isHexDigitJS c && isHexDigitJS d &&
        isHexDigitJS e && isHexDigitJS f && isHexDigitJS g) = false := by
      by_contra hcon
      rw [Bool.not_eq_false, Bool.and_eq_true, Bool.and_eq_true, Bool.and_eq_true,
        Bool.and_eq_true, Bool.and_eq_true, Bool.and_eq_true] at hcon
      obtain ⟨⟨⟨⟨⟨⟨hha, hhb⟩, hhc⟩, hhd⟩, hhe⟩, hhf⟩, hhg⟩ := hcon
      rw [decide_eq_true_eq] at hha
      subst hha
      have : specValidHexL ['#', b, c, d, e, f, g] = true := by
        simp [specValidHexL, stripHash, hhb, hhc, hhd, hhe, hhf, hhg]
      rw [this] at h
      exact absurd h (by decide)
    simp [expandShorthand, matchSix, hcond]
  · -- length at least 8
    rfl

/-- Claim C7: every input string that does not consist, after an optional
leading '#', of exactly 3 or 6 hex digits is rejected by hexToRgb with
null (none) rather than an exception. -/
theorem hexToRgb_invalid (s : String) (h : specValidHex s = false) :
    hexToRgb s = none :=
  matchSix_none_of_invalid s.data h

/-- Witness for hexToRgb_invalid at the input "not-a-color". -/
theorem hexToRgb_invalid_witness : hexToRgb "not-a-color" = none :=
  hexToRgb_invalid "not-a-color" (by decide)

/-- Every palette of the registry has a nonempty color list. -/
theorem palette_colors_ne_nil : ∀ kv ∈ PALETTES, kv.2.colors ≠ [] := by decide

/-- Every color string of every registry palette, and every background,
parses with hexToRgb. -/
theorem palette_color_isSome :
    ∀ kv ∈ PALETTES, (∀ c ∈ kv.2.colors, (hexToRgb c).isSome = true) ∧
      (hexToRgb kv.2.bg).isSome = true := by decide

/-- A successful lookupPalette returns one of the registry's palettes. -/
theorem lookupPalette_mem (key : String) (pal : Palette)
    (h : lookupPalette key = some pal) : ∃ kv ∈ PALETTES, kv.2 = pal := by
  unfold lookupPalette at h
  cases hf : PALETTES.find? (fun kv => kv.1 == key) with
  | none => rw [hf] at h; exact absurd h (by simp)
  | some kv =>
    rw [hf] at h
    simp only [Option.map_some', Option.some.injEq] at h
    exact ⟨kv, List.mem_of_find?_eq_some hf, h⟩

/-- pickColor with a random draw in [0, 1) selects an element of the
palette's color list. -/
theorem pickColor_mem (pal : Palette) (r : ℝ) (_h0 : 0 ≤ r) (h1 : r < 1)
    (hne : pal.colors ≠ []) : pickColor pal r ∈ pal.colors := by
  unfold pickColor
  have hlen : 0 < pal.colors.length := List.length_pos.mpr hne
  have hflt : ⌊r * (pal.colors.length : ℝ)⌋ < (pal.colors.length : ℤ) := by
    rw [Int.floor_lt]
    push_cast
    calc r * (pal.colors.length : ℝ) < 1 * (pal.colors.length : ℝ) := by
          exact mul_lt_mul_of_pos_right h1 (by exact_mod_cast hlen)
      _ = (pal.colors.length : ℝ) := one_mul _
  have hidx : (⌊r * (pal.colors.length : ℝ)⌋).toNat < pal.colors.length := by
    omega
  rw [List.getD_eq_getElem?_getD, List.getElem?_eq_getElem hidx]
  exact List.getElem_mem hidx

/-- recolor preserves the length of the particle pool. -/
theorem recolor_length (pal : Palette) (rnd : ℕ → ℝ) :
    ∀ (k : ℕ) (ps : List Particle), (recolor pal rnd k ps).length = ps.length := by
  intro k ps
  induction ps generalizing k with
  | nil => rfl
  | cons p rest ih => simp [recolor, ih]

/-- The particle at index i after recolor: its targetRgb is re-picked from
the palette with the i-th injected draw and nothing else changes. -/
theorem recolor_getD (pal : Palette) (rnd : ℕ → ℝ) :
    ∀ (k i : ℕ) (ps : List Particle), i < ps.length →
      (recolor pal rnd k ps).getD i testParticle =
        { ps.getD i testParticle with
            targetRgb := hexToRgb (pickColor pal (rnd (k + i))) } := by
  intro k i ps
  induction ps generalizing k i with
  | nil => intro hi; exact absurd hi (by simp)
  | cons p rest ih =>
    intro hi
    cases i with
    | zero => simp [recolor]
    | succ n =>
      have hrw : k + (n + 1) = (k + 1) + n := by omega
      simp only [recolor, List.getD_cons_succ, hrw]
      exact ih (k + 1) n (by simpa using hi)

/-- Every particle produced by recolor carries a re-picked targetRgb. -/
theorem recolor_mem (pal : Palette) (rnd : ℕ → ℝ) :
    ∀ (k : ℕ) (ps : List Particle) (q : Particle), q ∈ recolor pal rnd k ps →
      ∃ j, q.targetRgb = hexToRgb (pickColor pal (rnd j)) := by
  intro k ps
  induction ps generalizing k with
  | nil => intro q hq; exact absurd hq (by simp [recolor])
  | cons p rest ih =>
    intro q hq
    rcases List.mem_cons.mp hq with hq | hq
    · exact ⟨k, by rw [hq]⟩
    · exact ih (k + 1) q hq

/-- Claim C4: selectMood with a key outside the palette registry is a
no-op: the whole simulation state (active palette, background, every
particle) is unchanged, and no error is surfaced (setMood is total). -/
theorem setMood_unknown_key (key : String) (rnd : ℕ → ℝ) (st : SimState)
    (h : lookupPalette key = none) : setMood key rnd st = st := by
  unfold setMood
  rw [h]

/-- Witness for setMood_unknown_key: selectMood "joy" followed by
selectMood "nonexistent" leaves the state of the first call unchanged. -/
theorem setMood_unknown_key_witness :
    setMood "nonexistent" (fun _ => 0) (setMood "joy" (fun _ => 0) st0) =
      setMood "joy" (fun _ => 0) st0 :=
  setMood_unknown_key "nonexistent" (fun _ => 0)
    (setMood "joy" (fun _ => 0) st0) (by decide)

/-- Claim C5: immediately after selectMood with a registered key, the
active palette is the selected one, the pool size is unchanged, every
particle's targetRgb is the parse of a color picked from the new palette's
color list, and no particle's currentRgb changes (the current color only
converges toward the target over subsequent update frames). -/
theorem setMood_valid_key (key : String) (pal : Palette) (rnd : ℕ → ℝ)
    (st : SimState) (h : lookupPalette key = some pal)
    (hr : ∀ i, 0 ≤ rnd i ∧ rnd i < 1) :
    (setMood key rnd st).currentPalette = pal ∧
    (setMood key rnd st).particles.length = st.particles.length ∧
    ∀ i, i < st.particles.length →
      ((setMood key rnd st).particles.getD i testParticle).targetRgb =
          hexToRgb (pickColor pal (rnd i)) ∧
      pickColor pal (rnd i) ∈ pal.colors ∧
      ((setMood key rnd st).particles.getD i testParticle).currentRgb =
          (st.particles.getD i testParticle).currentRgb := by
  have hsm : setMood key rnd st =
      { currentPalette := pal, bodyBg := pal.bg,
        particles := recolor pal rnd 0 st.particles } := by
    unfold setMood
    rw [h]
  rw [hsm]
  refine ⟨rfl, recolor_length pal rnd 0 st.particles, fun i hi => ?_⟩
  have hg := recolor_getD pal rnd 0 i st.particles hi
  simp only [Nat.zero_add] at hg
  obtain ⟨kv, hkv, hkvpal⟩ := lookupPalette_mem key pal h
  have hne : pal.colors ≠ [] := hkvpal ▸ palette_colors_ne_nil kv hkv
  exact ⟨by rw [hg], pickColor_mem pal (rnd i) (hr i).1 (hr i).2 hne, by rw [hg]⟩

/-- Witness for setMood_valid_key: selecting "serenity" on the one-particle
state st0 with the constant draw 0. -/
theorem setMood_valid_key_witness :
    ((setMood "serenity" (fun _ => 0) st0).particles.getD 0 testParticle).targetRgb =
        hexToRgb (pickColor serenity 0) ∧
    ((setMood "serenity" (fun _ => 0) st0).particles.getD 0 testParticle).currentRgb =
        (st0.particles.getD 0 testParticle).currentRgb := by
  have h := setMood_valid_key "serenity" serenity (fun _ => 0) st0 (by decide)
    (fun i => by norm_num)
  have h0 := h.2.2 0 (by simp [st0])
  exact ⟨h0.1, h0.2.2⟩

/-- Claim C10: every color string and background of every registry palette
is a valid '#'-prefixed 6-digit hex string, so hexToRgb of any color
returned by pickColor (the path used by both reset and selectMood) is
non-null, and selectMood with a registered key never assigns a null
targetRgb to a particle. -/
theorem palettes_valid :
    (∀ kv ∈ PALETTES,
      (∀ c ∈ kv.2.colors, c.data.length = 7 ∧ specValidHex c = true ∧
        (hexToRgb c).isSome = true) ∧
      kv.2.bg.data.length = 7 ∧ specValidHex kv.2.bg = true ∧
        (hexToRgb kv.2.bg).isSome = true) ∧
    (∀ kv ∈ PALETTES, ∀ r : ℝ, 0 ≤ r → r < 1 →
      (hexToRgb (pickColor kv.2 r)).isSome = true) ∧
    (∀ (key : String) (pal : Palette) (rnd : ℕ → ℝ) (st : SimState),
      lookupPalette key = some pal → (∀ i, 0 ≤ rnd i ∧ rnd i < 1) →
      ∀ q ∈ (setMood key rnd st).particles, q.targetRgb.isSome = true) := by
  have hpick : ∀ kv ∈ PALETTES, ∀ r : ℝ, 0 ≤ r → r < 1 →
      (hexToRgb (pickColor kv.2 r)).isSome = true := by
    intro kv hkv r h0 h1
    have hmem := pickColor_mem kv.2 r h0 h1 (palette_colors_ne_nil kv hkv)
    exact (palette_color_isSome kv hkv).1 (pickColor kv.2 r) hmem
  refine ⟨by decide, hpick, ?_⟩
  intro key pal rnd st hkey hr q hq
  have hsm : setMood key rnd st =
      { currentPalette := pal, bodyBg := pal.bg,
        particles := recolor pal rnd 0 st.particles } := by
    unfold setMood
    rw [hkey]
  rw [hsm] at hq
  obtain ⟨j, hj⟩ := recolor_mem pal rnd 0 st.particles q hq
  obtain ⟨kv, hkv, hkvpal⟩ := lookupPalette_mem key pal hkey
  rw [hj, ← hkvpal]
  exact hpick kv hkv (rnd j) (hr j).1 (hr j).2

/-- Witness for palettes_valid: the joy palette with the draw 1/2. -/
theorem palettes_valid_witness :
    (hexToRgb (pickColor joy (1 / 2))).isSome = true :=
  palettes_valid.2.1 ("joy", joy) (by decide) (1 / 2) (by norm_num) (by norm_num)

/-- Each single Particle.update call eases the shared mouse position once
toward the raw target (src/liquid.js lines 132-133 are inside update). -/
theorem update_mouse (p : Particle) (mouse : Mouse) (tm : TargetMouse)
    (w h : ℝ) :
    (p.update mouse tm w h).map (fun pm => pm.2) =
      (p.update mouse tm w h).map (fun _ =>
        { mouse with x := mouse.x + (tm.x - mouse.x) * 0.1,
                     y := mouse.y + (tm.y - mouse.y) * 0.1 }) := by
  cases htr : p.targetRgb with
  | none => simp [Particle.update, htr]
  | some tgt => simp [Particle.update, htr]

/-- Claim C1 (amended): the smoothed pointer position is eased toward the
raw target once per particle update, inside Particle.update, not once per
frame: a frame over n particles applies the easing n times, scaling the
gap between the smoothed and raw pointer positions by 0.9^n, so particles
updated later in the same frame read a further-eased pointer position than
earlier ones; the activity flag is untouched. -/
theorem runFrame_pointer_ease_per_particle (ps : List Particle)
    (mouse : Mouse) (targetMouse : TargetMouse) (width height : ℝ) :
    (runFrame ps mouse targetMouse width height).map
        (fun out => (out.2.x, out.2.y, out.2.isActive)) =
      (runFrame ps mouse targetMouse width height).map
        (fun _ => (targetMouse.x + (mouse.x - targetMouse.x) * 0.9 ^ ps.length,
                   targetMouse.y + (mouse.y - targetMouse.y) * 0.9 ^ ps.length,
                   mouse.isActive)) := by
  induction ps generalizing mouse with
  | nil =>
    simp only [runFrame, Option.map_some', List.length_nil, pow_zero,
      Option.some.injEq, Prod.mk.injEq]
    refine ⟨by ring, by ring, trivial⟩
  | cons p rest ih =>
    cases hu : p.update mouse targetMouse width height with
    | none => simp [runFrame, hu]
    | some pm =>
      have hm : pm.2 =
          { mouse with x := mouse.x + (targetMouse.x - mouse.x) * 0.1,
                       y := mouse.y + (targetMouse.y - mouse.y) * 0.1 } := by
        have hmm := update_mouse p mouse targetMouse width height
        rw [hu] at hmm
        simpa using hmm
      cases hr : runFrame rest pm.2 targetMouse width height with
      | none => simp [runFrame, hu, hr]
      | some res =>
        have hih := ih pm.2
        rw [hr] at hih
        simp only [Option.map_some', Option.some.injEq] at hih
        simp only [runFrame, hu, hr, Option.map_some', Option.some.injEq]
        rw [hih, hm]
        simp only [Prod.mk.injEq, List.length_cons]
        refine ⟨by ring, by ring, trivial⟩

/-- Counterexample to claim C1 as stated: in one animate frame over two
particles with raw target (10, 10) and smoothed position starting at
(0, 0), the frame leaves the smoothed x at 1.9 (two easing steps: the
second particle reads an already re-eased position), while easing toward
the raw target exactly once per frame would leave it at 1. -/
theorem pointer_ease_not_once_per_frame_cex :
    (runFrame [testParticle, testParticle] testMouse testTargetMouse 100 100).map
        (fun out => out.2.x) = some 1.9 ∧
    testMouse.x + (testTargetMouse.x - testMouse.x) * 0.1 = 1 ∧
    (1.9 : ℝ) ≠ 1 := by
  refine ⟨?_, by norm_num [testMouse, testTargetMouse], by norm_num⟩
  simp only [runFrame, Particle.update, testParticle, testMouse, testTargetMouse,
    Option.map_some']
  norm_num
